import Mathlib

/-!
Verification of the rustero feed-acquisition pipeline: a shallow embedding of
the command algebra, the pipeline interpreter, the three-stage URL validation,
filename generation, and the fake fetcher, with theorems settling the frozen
claims about them.
-/

namespace Rustero

/-! ## String utilities (Rust `str` operations used by the pipeline) -/

/-- Rust `str::trim_end_matches('/')`: remove every trailing slash. -/
def trimEndSlashes (s : String) : String :=
  String.mk ((s.data.reverse.dropWhile (fun c => c == '/')).reverse)

/-- `leadsWith pat text` holds when `pat` is an initial run of `text`. -/
def leadsWith : List Char → List Char → Bool
  | [], _ => true
  | _ :: _, [] => false
  | p :: ps, t :: ts => p == t && leadsWith ps ts

/-- `hasSubList pat text`: `pat` occurs contiguously somewhere in `text`. -/
def hasSubList (pat : List Char) : List Char → Bool
  | [] => pat.isEmpty
  | t :: ts => leadsWith pat (t :: ts) || hasSubList pat ts

/-- Rust `str::contains(pat)` (for the ASCII patterns the validator uses,
byte-level and character-level search agree). -/
def strContains (text pat : String) : Bool :=
  hasSubList pat.data text.data

/-- Rust `str::to_lowercase`, modelled character-wise (the validator only
compares ASCII markers, where character-wise and full Unicode lowering
agree). -/
def strToLower (s : String) : String :=
  String.mk (s.data.map Char.toLower)

/-! ## URL model

Modelled from the spec: the external `url`/`reqwest` URL parser, reduced to the
two fields the pipeline reads (`scheme` and `host_str`).  The spec describes
stage 1 of validation as "parse the URL; fail if unparseable; fail if scheme is
not exactly http or https", and filename generation as reading the parsed
URL's host.  The model accepts `scheme://host...` forms: a nonempty scheme
beginning with a letter made of letters, digits, `+`, `-`, `.`; a nonempty
host running to the first `/`, `?`, `#` or `:` that contains no
forbidden-host code point (the URL standard's forbidden set).  Scheme and host
are lowercased as the `url` crate does.  URLs without a `://` authority are
out of the model and parse to `none`. -/

def schemeChar (c : Char) : Bool :=
  c.isAlphanum || c == '+' || c == '-' || c == '.'

def hostForbidden (c : Char) : Bool :=
  c == ' ' || c == '#' || c == '%' || c == '/' || c == ':' ||
  c == '<' || c == '>' || c == '?' || c == '@' || c == '[' ||
  c == '\\' || c == ']' || c == '^' || c == '|'

/-- Split `scheme "://" rest` at the first `://`; `none` when absent. -/
def splitSchemeRest : List Char → Option (List Char × List Char)
  | [] => none
  | ':' :: '/' :: '/' :: rest => some ([], rest)
  | ':' :: _ => none
  | c :: cs =>
    match splitSchemeRest cs with
    | none => none
    | some (sc, rest) => some (c :: sc, rest)

structure Url where
  scheme : String
  host : Option String
  deriving DecidableEq, Repr

def Url.parse (s : String) : Option Url :=
  match splitSchemeRest s.data with
  | none => none
  | some (schemeCs, rest) =>
    if schemeCs.isEmpty then none
    else if !(match schemeCs with | [] => false | c :: _ => c.isAlpha) then none
    else if !(schemeCs.all schemeChar) then none
    else
      let hostCs := rest.takeWhile
        (fun c => !(c == '/' || c == '?' || c == '#' || c == ':'))
      if hostCs.isEmpty then none
      else if hostCs.any hostForbidden then none
      else some ⟨String.mk (schemeCs.map Char.toLower),
                 some (String.mk (hostCs.map Char.toLower))⟩

/-- `Url::host_str().unwrap_or("unknown_host")` as used by filename
generation. -/
def Url.hostOr (u : Url) (dflt : String) : String :=
  u.host.getD dflt

/-! ## Data model (`src/podcast.rs`, `src/opml/opml_parser.rs`) -/

/-- `PodcastURL(String)`: a plain newtype over the URL string.  The
constructor `new` stores the string verbatim (no validation happens at
construction in the source). -/
structure PodcastURL where
  val : String
  deriving DecidableEq, Repr

def PodcastURL.new (s : String) : PodcastURL := ⟨s⟩

def PodcastURL.as_str (u : PodcastURL) : String := u.val

/-- The source `impl PartialEq for PodcastURL`: equality after trimming all
trailing slashes from both sides. -/
def PodcastURL.peq (a b : PodcastURL) : Bool :=
  trimEndSlashes a.val == trimEndSlashes b.val

structure EpisodeID where
  val : String
  deriving DecidableEq, Repr

def EpisodeID.new (s : String) : EpisodeID := ⟨s⟩

/-- `Episode` (timestamps modelled as `Nat`). -/
structure Episode where
  id : EpisodeID
  title : String
  description : Option String
  published_date : Nat
  duration : Option String
  audio_url : String
  size_in_bytes : Option Nat
  deriving DecidableEq, Repr

/-- `Podcast` (the `last_updated` timestamp modelled as `Nat`). -/
structure Podcast where
  url : PodcastURL
  title : String
  description : Option String
  image_url : Option String
  website_url : Option String
  episodes : List Episode
  last_updated : Nat
  deriving DecidableEq, Repr

def Podcast.new (url : PodcastURL) (title : String) (description : Option String)
    (image_url : Option String) (website_url : Option String)
    (episodes : List Episode) (now : Nat) : Podcast :=
  ⟨url, title, description, image_url, website_url, episodes, now⟩

structure OpmlFeedEntry where
  title : String
  xml_url : String
  html_url : Option String
  deriving DecidableEq, Repr

/-- `PipelineData`, the accumulator payload. -/
structure PipelineData where
  last_evaluated_url : Option PodcastURL := none
  current_podcast : Option Podcast := none
  opml_entries : Option (List OpmlFeedEntry) := none
  deriving DecidableEq, Repr

instance : Inhabited PipelineData := ⟨{}⟩

/-! ## Error taxonomy (`src/errors.rs`)

`reqwest::Error`, `rss::Error` and boxed `std::error::Error` sources are
external types; they are modelled as their display strings. -/

inductive DownloaderError where
  | networkError (msg : String)
  | rssError (msg : String)
  | failed (msg : String)
  deriving DecidableEq, Repr

/-- The `thiserror` display strings of `DownloaderError`. -/
def DownloaderError.message : DownloaderError → String
  | .networkError m => "Network error: " ++ m
  | .rssError m => "RSS parsing error: " ++ m
  | .failed m => "Download failed: " ++ m

inductive PipelineError where
  | downloadFailed (source : DownloaderError)
  | saveFailedWithMessage (msg : String)
  | saveFailedWithSource (message : String) (source : String)
  | evaluationFailed (msg : String)
  | evaluationFailedWithSource (message : String) (source : DownloaderError)
  | invalidState (msg : String)
  | upstreamError (source : PipelineError)
  deriving DecidableEq, Repr

instance {ε α : Type} [DecidableEq ε] [DecidableEq α] :
    DecidableEq (Except ε α) := fun a b =>
  match a, b with
  | .ok x, .ok y =>
    if h : x = y then .isTrue (by rw [h])
    else .isFalse (by simp [Except.ok.injEq, h])
  | .ok _, .error _ => .isFalse (by simp)
  | .error _, .ok _ => .isFalse (by simp)
  | .error x, .error y =>
    if h : x = y then .isTrue (by rw [h])
    else .isFalse (by simp [Except.error.injEq, h])

/-- `CommandAccumulator = Result<PipelineData, PipelineError>`. -/
abbrev CommandAccumulator := Except PipelineError PipelineData

/-- `AppEvent` (`src/event.rs`); the timestamp is modelled as `Nat`. -/
inductive AppEvent where
  | podcastReadyForApp (podcast : Podcast) (timestamp : Nat)
  deriving DecidableEq, Repr

/-! ## Feed model and factory (`src/podcast_factory.rs`)

`rss::Channel` is an external crate type; it is modelled with exactly the
fields the factory reads. -/

structure Enclosure where
  url : String
  length : String
  deriving DecidableEq, Repr

structure ItunesExt where
  duration : Option String
  deriving DecidableEq, Repr

/-- Modelled from the spec: an `rss::Item` as consumed by the factory (the
fields `create_podcast` reads). -/
structure Item where
  guid : Option String
  link : Option String
  title : Option String
  description : Option String
  enclosure : Option Enclosure
  itunes_ext : Option ItunesExt
  pub_date : Option String
  deriving DecidableEq, Repr

/-- Modelled from the spec: an `rss::Channel` as consumed by the factory
(image reduced to its url). -/
structure Channel where
  title : String
  link : String
  description : String
  image : Option String
  items : List Item
  deriving DecidableEq, Repr

structure ParsedFeed where
  channel : Channel
  deriving DecidableEq, Repr

inductive EpisodeSortOrder where
  | newestFirst
  | oldestFirst
  deriving DecidableEq, Repr

structure PodcastFactory where
  episode_limit : Option Nat
  sort_order : EpisodeSortOrder
  deriving DecidableEq, Repr

def PodcastFactory.new : PodcastFactory :=
  ⟨none, .newestFirst⟩

/-- Rust `str::parse::<u64>().ok()` restricted to the decimal digit strings
the feeds carry (the model rejects empty or non-digit strings, as Rust
does; a leading `+` is out of the model). -/
def parseU64 (s : String) : Option Nat :=
  if s.data.isEmpty then none
  else if s.data.all Char.isDigit then
    some (s.data.foldl (fun n c => n * 10 + (c.toNat - '0'.toNat)) 0)
  else none

/-- Environment of external effects the interpreter touches, each modelled as
a deterministic oracle: the fetcher, `rss::Channel::read_from`, the clock,
`fs::create_dir_all`, `serde_json::to_string_pretty`, `fs::write`, the
broadcast `send`, `parse_opml_from_file` (filesystem + OPML parser), and
`DateTime::parse_from_rfc2822`.  Error payloads of external error types are
their display strings. -/
structure FeedFetcher where
  fetch : String → Except DownloaderError String
  fetch_headers : String → Except DownloaderError (List (String × String))
  fetch_partial_content : String → Nat × Nat → Except DownloaderError String

structure Env where
  fetcher : FeedFetcher
  read_channel : String → Except String Channel
  now : Nat
  create_dir_all : String → Except String Unit
  to_string_pretty : Podcast → Except String String
  write : String → String → Except String Unit
  send : AppEvent → Except String Unit
  parse_opml_from_file : String → Except String (List OpmlFeedEntry)
  parse_rfc2822 : String → Option Nat

/-- `PodcastFactory::create_podcast` (`src/podcast_factory.rs`): build the
episode list by filtering the channel's items, apply the episode limit and
sort order, and assemble the `Podcast`. -/
def PodcastFactory.create_podcast (f : PodcastFactory) (env : Env)
    (parsed : ParsedFeed) (feed_url : String) : Except DownloaderError Podcast :=
  let episodes : List Episode := parsed.channel.items.filterMap (fun item =>
    match (match item.guid with | some g => some g | none => item.link) with
    | none => none
    | some id =>
      match item.title with
      | none => none
      | some title =>
        let description := item.description
        match item.enclosure with
        | none => none
        | some enclosure =>
          let audio_url := enclosure.url
          let size_in_bytes := parseU64 enclosure.length
          let duration := match item.itunes_ext with
            | some it => it.duration
            | none => none
          let pub_date := match item.pub_date with
            | some s => (env.parse_rfc2822 s).getD env.now
            | none => env.now
          some ⟨EpisodeID.new id, title, description, pub_date, duration,
                audio_url, size_in_bytes⟩)
  let episodes := match f.episode_limit with
    | some limit => episodes.take limit
    | none => episodes
  let episodes := match f.sort_order with
    | .oldestFirst => episodes.reverse
    | .newestFirst => episodes
  .ok (Podcast.new (PodcastURL.new feed_url) parsed.channel.title
        (some parsed.channel.description) parsed.channel.image
        (some parsed.channel.link) episodes env.now)

/-! ## Fetchers (`src/podcast_download.rs`) -/

/-- UTF-8 byte length of one character (Rust `char::len_utf8`). -/
def charUtf8Len (c : Char) : Nat :=
  if c.toNat < 0x80 then 1
  else if c.toNat < 0x800 then 2
  else if c.toNat < 0x10000 then 3
  else 4

/-- UTF-8 byte length of a string (Rust `str::len`). -/
def strByteLen (s : String) : Nat :=
  s.data.foldl (fun n c => n + charUtf8Len c) 0

/-- Drop the first `n` bytes of a character list; `none` when `n` is past the
end or does not fall on a character boundary (where Rust slicing panics). -/
def dropBytes : List Char → Nat → Option (List Char)
  | cs, 0 => some cs
  | [], _ + 1 => none
  | c :: cs, n + 1 =>
    if charUtf8Len c ≤ n + 1 then dropBytes cs (n + 1 - charUtf8Len c) else none

/-- Take the first `n` bytes of a character list; `none` when `n` is past the
end or splits a character. -/
def takeBytes : List Char → Nat → Option (List Char)
  | _, 0 => some []
  | [], _ + 1 => none
  | c :: cs, n + 1 =>
    if charUtf8Len c ≤ n + 1 then
      (takeBytes cs (n + 1 - charUtf8Len c)).map (fun l => c :: l)
    else none

/-- Rust byte slicing `&s[a..b]`: `none` models the panic (inverted range, an
index past the end, or an index that splits a UTF-8 character). -/
def byteSlice (s : String) (a b : Nat) : Option String :=
  if a ≤ b then
    match dropBytes s.data a with
    | none => none
    | some rest =>
      match takeBytes rest (b - a) with
      | none => none
      | some l => some (String.mk l)
  else none

/-- `FakeFetcher::fetch_partial_content` over its canned `response`.  The
outer `Option` models panic-freedom: `none` is a Rust panic.  The byte range
carries `u64` values, so `byte_range.1 + 1` overflows when
`byte_range.1 = u64::MAX`; the fake fetcher runs under `cargo test` (debug
builds), where the overflow itself panics, and this happens before the
`start < len` test, so it panics on either branch.  (In a release build the
addition would instead wrap to 0 and the slice `[start..0]` would then panic
for any `start ≥ 1`.)  The slice `&self.response[start..effective_end]` also
panics when an index splits a UTF-8 character or the range is inverted;
`byteSlice` models those panics. -/
def FakeFetcher.fetch_partial_content (response : String)
    (byte_range : Nat × Nat) : Option (Except DownloaderError String) :=
  let start := byte_range.1
  if byte_range.2 + 1 ≥ 2 ^ 64 then none
  else
    let endExclusive := byte_range.2 + 1
    if start < strByteLen response then
      let effective_end := min endExclusive (strByteLen response)
      (byteSlice response start effective_end).map (fun s => Except.ok s)
    else
      some (.ok "")

/-- `HashMap::get` on the lowercased header map, modelled as first-match
lookup in an association list. -/
def headersGet (headers : List (String × String)) (k : String) : Option String :=
  (headers.find? (fun p => p.1 == k)).map (fun p => p.2)

/-- `download_and_create_podcast` (`src/podcast_download.rs`): fetch the full
body, parse it as an RSS channel, and build the `Podcast` through the
factory. -/
def download_and_create_podcast (env : Env) (url : PodcastURL) :
    Except DownloaderError Podcast :=
  match env.fetcher.fetch url.as_str with
  | .error e => .error e
  | .ok content =>
    match env.read_channel content with
    | .error e => .error (.rssError e)
    | .ok channel =>
      PodcastFactory.new.create_podcast env ⟨channel⟩ url.val

/-! ## Interpreter helpers (`src/commands/interpreter_helpers.rs`) -/

inductive ValidationStepResult where
  | validated
  | inconclusive
  deriving DecidableEq, Repr

/-- Display string of the external URL parse error (modelled: the claims never
inspect it). -/
def urlParseErrorMsg : String := "relative URL without a base"

/-- `validate_url_syntax_and_scheme`: parse, then require scheme `http` or
`https`. -/
def validate_url_syntax_and_scheme (url_str : String) :
    Except PipelineError Url :=
  match Url.parse url_str with
  | none =>
    .error (.evaluationFailed
      ("Invalid URL format for '" ++ url_str ++ "': " ++ urlParseErrorMsg))
  | some parsed_url =>
    if parsed_url.scheme != "http" && parsed_url.scheme != "https" then
      .error (.evaluationFailed
        ("Invalid URL scheme for '" ++ url_str ++ "': '" ++ parsed_url.scheme ++
         "'. Only http/https supported."))
    else
      .ok parsed_url

/-- `try_validate_via_head`: HEAD request, then content-type sniff. -/
def try_validate_via_head (fetcher : FeedFetcher) (url_str : String) :
    Except DownloaderError ValidationStepResult :=
  match fetcher.fetch_headers url_str with
  | .ok headers =>
    match headersGet headers "content-type" with
    | some content_type =>
      let ct_lower := strToLower content_type
      if strContains ct_lower "application/rss+xml"
          || strContains ct_lower "application/atom+xml"
          || strContains ct_lower "application/xml"
          || strContains ct_lower "text/xml" then
        .ok .validated
      else
        .ok .inconclusive
    | none => .ok .inconclusive
  | .error e => .error e

/-- `try_validate_via_partial_get`: fetch bytes 0..=4095 and sniff for
`<rss` / `<feed` (case-insensitive). -/
def try_validate_via_partial_get (fetcher : FeedFetcher) (url_str : String) :
    Except DownloaderError ValidationStepResult :=
  match fetcher.fetch_partial_content url_str (0, 4095) with
  | .ok partial_content =>
    if strContains (strToLower partial_content) "<rss"
        || strContains (strToLower partial_content) "<feed" then
      .ok .validated
    else
      .ok .inconclusive
  | .error e => .error e

/-! ## Filename generation (`src/commands/podcast_pipeline_interpreter.rs`) -/

def PODCAST_DATA_DIR : String := "podcast_data"

/-- Modelled from the spec: std's `DefaultHasher` is external library code;
the spec asks only for "a hex digest of a hash of the full URL string", so
the 64-bit hash is modelled as an FNV-style fold reduced mod `2 ^ 64`. -/
def defaultHash (s : String) : Nat :=
  (s.data.foldl (fun h c => (h * 1099511628211 + c.toNat) % (2 ^ 64))
    14695981039346656037) % (2 ^ 64)

/-- `format!("{:x}", _)`: lowercase hex, no leading zeros. -/
def natToHex (n : Nat) : String :=
  String.mk (Nat.toDigits 16 n)

/-- `calculate_url_hash`. -/
def calculate_url_hash (url_str : String) : String :=
  natToHex (defaultHash url_str)

/-- The host sanitization inside `generate_podcast_filename`: keep
alphanumerics, `.` and `-`; replace every other character with `_`. -/
def sanitized_host (host : String) : String :=
  String.mk (host.data.map (fun c =>
    if !c.isAlphanum && c != '.' && c != '-' then '_' else c))

/-- `generate_podcast_filename`. -/
def generate_podcast_filename (podcast_url : PodcastURL) :
    Except PipelineError String :=
  let url_str := podcast_url.as_str
  match Url.parse url_str with
  | none =>
    .error (.saveFailedWithMessage
      ("Invalid URL format for filename generation ('" ++ url_str ++ "'): " ++
       urlParseErrorMsg))
  | some parsed_url =>
    let host := parsed_url.hostOr "unknown_host"
    .ok (sanitized_host host ++ "-" ++ calculate_url_hash url_str ++ ".json")

/-! ## Pipeline interpreter steps
(`src/commands/podcast_pipeline_interpreter.rs`) -/

/-- `interpret_eval_url`: syntax/scheme stage, HEAD stage, then partial-GET
stage.  A HEAD outcome other than `Ok(Validated)` (inconclusive or transport
failure) falls through to the partial GET. -/
def interpret_eval_url (fetcher : FeedFetcher) (url_to_eval : PodcastURL)
    (current_acc : CommandAccumulator) : CommandAccumulator :=
  match current_acc with
  | .error _ => current_acc
  | .ok pipeline_data =>
    let url_str := url_to_eval.as_str
    match validate_url_syntax_and_scheme url_str with
    | .error e => .error e
    | .ok _ =>
      match try_validate_via_head fetcher url_str with
      | .ok .validated =>
        .ok { pipeline_data with
              last_evaluated_url := some url_to_eval
              current_podcast := none }
      | _ =>
        match try_validate_via_partial_get fetcher url_str with
        | .ok .validated =>
          .ok { pipeline_data with
                last_evaluated_url := some url_to_eval
                current_podcast := none }
        | .ok .inconclusive =>
          .error (.evaluationFailed
            ("URL content (first 4KB) of '" ++ url_str ++
             "' does not appear to be a valid RSS/Atom feed."))
        | .error partial_get_downloader_error =>
          .error (.evaluationFailed
            ("Failed to fetch partial content for URL evaluation of '" ++
             url_str ++ "': " ++ partial_get_downloader_error.message))

/-- `interpret_download`: prefer `last_evaluated_url`, else the command's
explicit URL; on success store the podcast and consume the evaluated URL. -/
def interpret_download (env : Env) (explicit_url_from_command : PodcastURL)
    (current_acc : CommandAccumulator) : CommandAccumulator :=
  match current_acc with
  | .error _ => current_acc
  | .ok pipeline_data =>
    let url_to_use := match pipeline_data.last_evaluated_url with
      | some eval_url => eval_url
      | none => explicit_url_from_command
    match download_and_create_podcast env url_to_use with
    | .error e => .error (.downloadFailed e)
    | .ok podcast_obj =>
      .ok { pipeline_data with
            current_podcast := some podcast_obj
            last_evaluated_url := none }

/-- `interpret_save`: require a downloaded podcast, derive the filename,
ensure the data directory, serialize, write, publish the ready event (send
failure only logged), and return the original data. -/
def interpret_save (env : Env) (current_acc : CommandAccumulator) :
    CommandAccumulator :=
  match current_acc with
  | .error _ => current_acc
  | .ok data =>
    match data.current_podcast with
    | none =>
      .error (.invalidState "Save called without a podcast in accumulator")
    | some podcast_to_save =>
      match generate_podcast_filename podcast_to_save.url with
      | .error e => .error e
      | .ok filename =>
        match env.create_dir_all PODCAST_DATA_DIR with
        | .error io_err =>
          .error (.saveFailedWithSource
            ("Failed to create podcast data directory '" ++
             PODCAST_DATA_DIR ++ "'") io_err)
        | .ok _ =>
          let file_path := PODCAST_DATA_DIR ++ "/" ++ filename
          match env.to_string_pretty podcast_to_save with
          | .error serde_err =>
            .error (.saveFailedWithSource
              ("Serialization failed for '" ++ podcast_to_save.title ++ "'")
              serde_err)
          | .ok json_to_write =>
            match env.write file_path json_to_write with
            | .ok _ =>
              match env.send (.podcastReadyForApp podcast_to_save env.now) with
              | .ok _ => .ok data
              | .error _ => .ok data
            | .error io_error =>
              .error (.saveFailedWithSource
                ("Failed to write podcast '" ++ podcast_to_save.title ++
                 "' to disk at '" ++ file_path ++ "'") io_error)

/-- `interpret_load_opml_file`. -/
def interpret_load_opml_file (env : Env) (file_path : String)
    (current_acc : CommandAccumulator) : CommandAccumulator :=
  match current_acc with
  | .error _ => current_acc
  | .ok pipeline_data =>
    match env.parse_opml_from_file file_path with
    | .error e =>
      .error (.evaluationFailedWithSource
        ("Failed to parse OPML file '" ++ file_path ++ "': " ++ e)
        (.failed e))
    | .ok entries =>
      .ok { pipeline_data with opml_entries := some entries }

/-- `interpret_end`: terminal identity step. -/
def interpret_end (final_acc : CommandAccumulator) : CommandAccumulator :=
  final_acc

/-! ## Command algebra and runner (`src/commands/podcast_commands.rs`,
`src/commands/podcast_algebra.rs`)

The command chain as consumed by `run_commands` (the `LoadOpmlFile` node is
matched by `run_commands` even though the enum draft in
`podcast_commands.rs` omits it; the runner's match is the authority for the
runner's semantics).  The `PodcastAlgebra` trait takes `&mut self`, so an
algebra is modelled over an explicit state type `σ`; each method maps its
state and the accumulator to a new state and accumulator. -/

inductive PodcastCmd where
  | evalUrl (url : PodcastURL) (next : PodcastCmd)
  | download (url : PodcastURL) (next : PodcastCmd)
  | save (next : PodcastCmd)
  | loadOpmlFile (path : String) (next : PodcastCmd)
  | processOpmlEntries (entries : List OpmlFeedEntry) (next : PodcastCmd)
  | endCmd
  deriving Repr

structure PodcastAlgebra (σ : Type) where
  interpret_eval_url :
    σ → PodcastURL → CommandAccumulator → σ × CommandAccumulator
  interpret_download :
    σ → PodcastURL → CommandAccumulator → σ × CommandAccumulator
  interpret_save : σ → CommandAccumulator → σ × CommandAccumulator
  interpret_load_opml_file :
    σ → String → CommandAccumulator → σ × CommandAccumulator
  interpret_process_opml_entries :
    σ → List OpmlFeedEntry → CommandAccumulator → σ × CommandAccumulator
  interpret_end : σ → CommandAccumulator → σ × CommandAccumulator

/-- `run_commands`: walk the chain, invoking the method matching each node's
tag and replacing the accumulator with its result, always advancing to the
node's `next`; the loop ends by interpreting `End`.  (The source's imperative
loop over `next` pointers is this structural recursion.) -/
def run_commands {σ : Type} (algebra : PodcastAlgebra σ) :
    PodcastCmd → σ → CommandAccumulator → σ × CommandAccumulator
  | .evalUrl url next, s, acc =>
    let r := algebra.interpret_eval_url s url acc
    run_commands algebra next r.1 r.2
  | .download url next, s, acc =>
    let r := algebra.interpret_download s url acc
    run_commands algebra next r.1 r.2
  | .save next, s, acc =>
    let r := algebra.interpret_save s acc
    run_commands algebra next r.1 r.2
  | .loadOpmlFile path next, s, acc =>
    let r := algebra.interpret_load_opml_file s path acc
    run_commands algebra next r.1 r.2
  | .processOpmlEntries entries next, s, acc =>
    let r := algebra.interpret_process_opml_entries s entries acc
    run_commands algebra next r.1 r.2
  | .endCmd, s, acc => algebra.interpret_end s acc

/-- The tag (with payload) of one non-terminal node. -/
inductive StepTag where
  | evalUrl (url : PodcastURL)
  | download (url : PodcastURL)
  | save
  | loadOpmlFile (path : String)
  | processOpmlEntries (entries : List OpmlFeedEntry)

/-- The non-terminal nodes of a chain, in chain order. -/
def chainSteps : PodcastCmd → List StepTag
  | .evalUrl url next => .evalUrl url :: chainSteps next
  | .download url next => .download url :: chainSteps next
  | .save next => .save :: chainSteps next
  | .loadOpmlFile path next => .loadOpmlFile path :: chainSteps next
  | .processOpmlEntries entries next =>
    .processOpmlEntries entries :: chainSteps next
  | .endCmd => []

/-- Apply the interpreter method matching one tag. -/
def stepApply {σ : Type} (algebra : PodcastAlgebra σ) :
    StepTag → σ × CommandAccumulator → σ × CommandAccumulator
  | .evalUrl url, p => algebra.interpret_eval_url p.1 url p.2
  | .download url, p => algebra.interpret_download p.1 url p.2
  | .save, p => algebra.interpret_save p.1 p.2
  | .loadOpmlFile path, p => algebra.interpret_load_opml_file p.1 path p.2
  | .processOpmlEntries entries, p =>
    algebra.interpret_process_opml_entries p.1 entries p.2

/-! ## The concurrent OPML fan-out
(`interpret_process_opml_entries` in
`src/commands/podcast_pipeline_interpreter.rs`)

Each entry's sub-chain `EvalUrl → Download → Save → End` runs against a fresh
`PipelineData` and a fresh interpreter sharing the same fetcher and event bus;
the tasks share no mutable state, so the unordered concurrent join is modelled
as the list of per-entry outcomes (the `bool` each spawned task returns,
`true` on sub-chain success), in entry order.  The interpreter's own state is
trivial (`PodcastPipelineInterpreter` never mutates its fields), so the
algebra's state type is `Unit`.  The nesting of pipelines is paid for with a
fuel parameter; sub-chains contain no `ProcessOpmlEntries` node, so no claim
depends on the fuel. -/

/-- The pipeline interpreter's algebra over the effect environment, with the
fan-out method's behavior supplied by `nestedProcess` (the fan-out nests
whole pipeline runs; the nesting depth is paid for with the fuel below). -/
def pipelineAlgebraWith (env : Env)
    (nestedProcess : List OpmlFeedEntry → CommandAccumulator →
      CommandAccumulator) : PodcastAlgebra Unit :=
  { interpret_eval_url := fun _ url acc =>
      ((), interpret_eval_url env.fetcher url acc)
    interpret_download := fun _ url acc =>
      ((), interpret_download env url acc)
    interpret_save := fun _ acc => ((), interpret_save env acc)
    interpret_load_opml_file := fun _ path acc =>
      ((), interpret_load_opml_file env path acc)
    interpret_process_opml_entries := fun _ entries acc =>
      ((), nestedProcess entries acc)
    interpret_end := fun _ acc => ((), interpret_end acc) }

/-- The body of `interpret_process_opml_entries`: consume `opml_entries` from
the accumulator (falling back to the command's explicit list), succeed
trivially on an empty list, and otherwise run one fresh sub-chain
`EvalUrl → Download → Save → End` per entry against a fresh `PipelineData`,
returning the parent data together with the logged per-entry outcomes
(`true` = sub-chain succeeded, the `bool` each spawned task returns). -/
def processOpmlBody (env : Env)
    (nestedProcess : List OpmlFeedEntry → CommandAccumulator →
      CommandAccumulator)
    (feed_entries_to_process : List OpmlFeedEntry)
    (current_acc : CommandAccumulator) : CommandAccumulator × List Bool :=
  match current_acc with
  | .error _ => (current_acc, [])
  | .ok data =>
    let taken : List OpmlFeedEntry × PipelineData :=
      match data.opml_entries with
      | some acc_entries => (acc_entries, { data with opml_entries := none })
      | none => (feed_entries_to_process, data)
    let entries := taken.1
    let data := taken.2
    if entries.isEmpty then (.ok data, [])
    else
      let results := entries.map (fun entry =>
        let podcast_url_from_opml := PodcastURL.new entry.xml_url
        let command_sequence_for_entry : PodcastCmd :=
          .evalUrl podcast_url_from_opml
            (.download podcast_url_from_opml (.save .endCmd))
        let sub_result :=
          (run_commands (pipelineAlgebraWith env nestedProcess)
            command_sequence_for_entry () (.ok {})).2
        match sub_result with
        | .error _ => false
        | .ok _ => true)
      (.ok data, results)

/-- `interpret_process_opml_entries`, by recursion on the nesting fuel.  At
fuel 0 a nested fan-out inside a sub-chain is out of the model (the
sub-chains the fan-out builds never contain a `ProcessOpmlEntries` node, so
no claim reaches that arm). -/
def interpret_process_opml_entries_fuel (env : Env) :
    Nat → List OpmlFeedEntry → CommandAccumulator →
    CommandAccumulator × List Bool
  | 0, feed_entries, acc =>
    processOpmlBody env (fun _ a => a) feed_entries acc
  | n + 1, feed_entries, acc =>
    processOpmlBody env
      (fun es a => (interpret_process_opml_entries_fuel env n es a).1)
      feed_entries acc

/-- The pipeline interpreter's full algebra at a given fan-out fuel. -/
def pipelineAlgebraFuel (env : Env) (fuel : Nat) : PodcastAlgebra Unit :=
  pipelineAlgebraWith env (fun es a =>
    match fuel with
    | 0 => a
    | n + 1 => (interpret_process_opml_entries_fuel env n es a).1)

/-- The chain the fan-out builds for one OPML entry. -/
def entryChain (entry : OpmlFeedEntry) : PodcastCmd :=
  let u := PodcastURL.new entry.xml_url
  .evalUrl u (.download u (.save .endCmd))

/-- The per-entry outcome bool the fan-out logs for one entry. -/
def subChainOk (env : Env) (fuel : Nat) (entry : OpmlFeedEntry) : Bool :=
  match (run_commands (pipelineAlgebraFuel env fuel) (entryChain entry) ()
          (.ok {})).2 with
  | .error _ => false
  | .ok _ => true

/-- The entry list the fan-out actually processes: the accumulator's
`opml_entries` when present, else the command's explicit list. -/
def effectiveEntries (data : PipelineData) (feed_entries : List OpmlFeedEntry) :
    List OpmlFeedEntry :=
  match data.opml_entries with
  | some acc_entries => acc_entries
  | none => feed_entries

/-! ## Theorems -/

/-- C1: for every finite command chain and every initial accumulator,
`run_commands` invokes the interpreter method matching each non-terminal
node's tag in chain order, replaces the accumulator (and interpreter state)
with each result, and advances to the next node even when that result is an
error; `interpret_end` is invoked exactly once, on the accumulator produced
by folding the non-terminal steps, and its return value is what
`run_commands` returns. -/
theorem run_commands_folds_steps_then_end {σ : Type}
    (algebra : PodcastAlgebra σ) (command : PodcastCmd) (s : σ)
    (acc : CommandAccumulator) :
    run_commands algebra command s acc =
      (fun p : σ × CommandAccumulator => algebra.interpret_end p.1 p.2)
        (List.foldl (fun p t => stepApply algebra t p) (s, acc)
          (chainSteps command)) := by
  induction command generalizing s acc with
  | evalUrl url next ih =>
    simp only [run_commands, chainSteps, List.foldl, stepApply, ih]
  | download url next ih =>
    simp only [run_commands, chainSteps, List.foldl, stepApply, ih]
  | save next ih =>
    simp only [run_commands, chainSteps, List.foldl, stepApply, ih]
  | loadOpmlFile path next ih =>
    simp only [run_commands, chainSteps, List.foldl, stepApply, ih]
  | processOpmlEntries entries next ih =>
    simp only [run_commands, chainSteps, List.foldl, stepApply, ih]
  | endCmd =>
    simp only [run_commands, chainSteps, List.foldl]

/-- C2: every interpreter step applied to an error accumulator returns the
same error unchanged, performing no recovery. -/
theorem interpreter_steps_propagate_error (env : Env) (fuel : Nat)
    (url : PodcastURL) (path : String) (entries : List OpmlFeedEntry)
    (e : PipelineError) :
    interpret_eval_url env.fetcher url (.error e) = .error e ∧
    interpret_download env url (.error e) = .error e ∧
    interpret_save env (.error e) = .error e ∧
    interpret_load_opml_file env path (.error e) = .error e ∧
    (interpret_process_opml_entries_fuel env fuel entries (.error e)).1 =
      .error e ∧
    interpret_end (.error e) = .error e := by
  refine ⟨rfl, rfl, rfl, rfl, ?_, rfl⟩
  cases fuel <;> rfl

/-- C9 counterexample: `PodcastURL` is not validated at construction; the
constructor accepts a string that is not a parseable URL and stores it
verbatim, rejecting nothing. -/
theorem podcastURL_accepts_invalid_string :
    Url.parse "not a valid url" = none ∧
    PodcastURL.new "not a valid url" = ⟨"not a valid url"⟩ :=
  ⟨by decide, rfl⟩

/-- C9 (amended): `PodcastURL` construction performs no validation — any
string is accepted and stored verbatim — and for all strings `a` and `b`,
`PodcastURL(a)` equals `PodcastURL(b)` if and only if `a` and `b` are
identical after trimming all trailing `/` characters. -/
theorem podcastURL_new_and_eq_normalized (a b : String) :
    (PodcastURL.new a).as_str = a ∧
    ((PodcastURL.new a).peq (PodcastURL.new b) = true ↔
      trimEndSlashes a = trimEndSlashes b) := by
  refine ⟨rfl, ?_⟩
  simp [PodcastURL.peq, PodcastURL.new]

/-- C10 counterexample: `FakeFetcher::fetch_partial_content` does not return
`Ok` for every response and byte range — at the two-byte response `"é"` with
range `(1, 1)` the slice start index falls inside the character and the
slice panics (`none` in the model); for the ASCII response `"abcd"` the
inverted range `(2, 0)` makes the slice `[2..1]` panic; and at
`end = u64::MAX` the computation of `end + 1` overflows `u64` and panics
before the slice is even formed. -/
theorem fake_fetch_partial_content_panics :
    FakeFetcher.fetch_partial_content "é" (1, 1) = none ∧
    FakeFetcher.fetch_partial_content "abcd" (2, 0) = none ∧
    FakeFetcher.fetch_partial_content "abcd" (1, 2 ^ 64 - 1) = none :=
  ⟨by decide, by decide, by decide⟩

/-- Helper: on all-ASCII characters, dropping `n` bytes is dropping `n`
characters. -/
theorem dropBytes_ascii (cs : List Char) (h : ∀ c ∈ cs, c.toNat < 128) :
    ∀ n, n ≤ cs.length → dropBytes cs n = some (cs.drop n) := by
  induction cs with
  | nil =>
    intro n hn
    simp only [List.length_nil, Nat.le_zero] at hn
    subst hn
    rfl
  | cons c cs ih =>
    intro n hn
    cases n with
    | zero => rfl
    | succ m =>
      have h1 : c.toNat < 128 := h c (by simp)
      have hc : charUtf8Len c = 1 := by
        unfold charUtf8Len
        rw [if_pos (by omega)]
      simp only [dropBytes, hc, List.drop_succ_cons]
      rw [if_pos (by omega : (1 : Nat) ≤ m + 1)]
      have hm : m + 1 - 1 = m := rfl
      rw [hm]
      refine ih (fun x hx => h x (List.mem_cons_of_mem _ hx)) m ?_
      simp only [List.length_cons] at hn
      omega

/-- Helper: on all-ASCII characters, taking `n` bytes is taking `n`
characters. -/
theorem takeBytes_ascii (cs : List Char) (h : ∀ c ∈ cs, c.toNat < 128) :
    ∀ n, n ≤ cs.length → takeBytes cs n = some (cs.take n) := by
  induction cs with
  | nil =>
    intro n hn
    simp only [List.length_nil, Nat.le_zero] at hn
    subst hn
    rfl
  | cons c cs ih =>
    intro n hn
    cases n with
    | zero => rfl
    | succ m =>
      have h1 : c.toNat < 128 := h c (by simp)
      have hc : charUtf8Len c = 1 := by
        unfold charUtf8Len
        rw [if_pos (by omega)]
      simp only [takeBytes, hc, List.take_succ_cons]
      rw [if_pos (by omega : (1 : Nat) ≤ m + 1)]
      have hm : m + 1 - 1 = m := rfl
      rw [hm]
      have hrec := ih (fun x hx => h x (List.mem_cons_of_mem _ hx)) m
        (by simp only [List.length_cons] at hn; omega)
      rw [hrec]
      rfl

/-- Helper: the byte length of an all-ASCII string is its character count. -/
theorem strByteLen_ascii (s : String) (h : ∀ c ∈ s.data, c.toNat < 128) :
    strByteLen s = s.data.length := by
  have general : ∀ (cs : List Char), (∀ c ∈ cs, c.toNat < 128) → ∀ a : Nat,
      cs.foldl (fun n c => n + charUtf8Len c) a = a + cs.length := by
    intro cs
    induction cs with
    | nil => intro _ a; simp
    | cons c cs ih =>
      intro hcs a
      have h1 : c.toNat < 128 := hcs c (by simp)
      have hc : charUtf8Len c = 1 := by
        unfold charUtf8Len
        rw [if_pos (by omega)]
      simp only [List.foldl, hc, List.length_cons,
        ih (fun x hx => hcs x (List.mem_cons_of_mem _ hx))]
      omega
  simpa using general s.data h 0

/-- C10 (amended): `FakeFetcher::fetch_partial_content` returns `Ok` without
panicking whenever `end + 1` does not overflow `u64` (`end < u64::MAX`), the
range is not inverted, and the slice indices fall on UTF-8 character
boundaries — in particular for every all-ASCII canned response with
`start ≤ end + 1 < 2^64`: it returns the empty string when `start` is at or
past the response byte length, and otherwise the slice of the response from
byte `start` up to `min(end + 1, length)` exclusive.  (For a non-ASCII
response, an inverted range, or `end = u64::MAX`, the function panics, as
the counterexample shows.) -/
theorem fake_fetch_partial_content_ascii_ok (response : String)
    (start endB : Nat) (hascii : ∀ c ∈ response.data, c.toNat < 128)
    (hrange : start ≤ endB + 1) (hend : endB + 1 < 2 ^ 64) :
    FakeFetcher.fetch_partial_content response (start, endB) =
      some (.ok (if start < strByteLen response
        then String.mk ((response.data.drop start).take
          (min (endB + 1) (strByteLen response) - start))
        else "")) := by
  have hlen := strByteLen_ascii response hascii
  have hov : ¬ (endB + 1 ≥ 2 ^ 64) := Nat.not_le.mpr hend
  by_cases hs : start < strByteLen response
  · have hdrop : dropBytes response.data start =
        some (response.data.drop start) :=
      dropBytes_ascii response.data hascii start (by omega)
    have htail : ∀ c ∈ response.data.drop start, c.toNat < 128 :=
      fun c hc => hascii c (List.mem_of_mem_drop hc)
    have htake : takeBytes (response.data.drop start)
        (min (endB + 1) (strByteLen response) - start) =
        some ((response.data.drop start).take
          (min (endB + 1) (strByteLen response) - start)) := by
      apply takeBytes_ascii _ htail
      simp only [List.length_drop]
      omega
    simp only [FakeFetcher.fetch_partial_content, byteSlice, hov, hs,
      if_true, ite_true, if_false, ite_false]
    rw [if_pos (show start ≤ min (endB + 1) (strByteLen response) by omega)]
    simp only [hdrop, htake]
    rfl
  · simp only [FakeFetcher.fetch_partial_content, hov, hs, if_true, ite_true,
      if_false, ite_false]

/-- C10 amended witness: the theorem applied at the concrete ASCII response
`"hello"` and range `(1, 2)` yields the slice `"el"`. -/
theorem fake_fetch_partial_content_ascii_ok_witness :
    FakeFetcher.fetch_partial_content "hello" (1, 2) = some (.ok "el") := by
  have h := fake_fetch_partial_content_ascii_ok "hello" 1 2
    (by decide) (by omega) (by norm_num)
  simpa using h

/-- Helper: stage 1 of evaluation succeeds on a parseable http/https URL. -/
theorem validate_url_ok (url_str : String) (p : Url)
    (hparse : Url.parse url_str = some p)
    (hscheme : p.scheme = "http" ∨ p.scheme = "https") :
    validate_url_syntax_and_scheme url_str = .ok p := by
  unfold validate_url_syntax_and_scheme
  rw [hparse]
  rcases hscheme with h | h <;> simp [h]

/-- C3: for a well-formed http/https URL whose HEAD response carries a
content-type containing (case-insensitively) one of the four feed types,
`interpret_eval_url` on a success accumulator succeeds without issuing a
partial GET (the result is the same for every partial-GET oracle), records
the URL in `last_evaluated_url`, and clears `current_podcast`. -/
theorem interpret_eval_url_head_validated
    (fetcher : FeedFetcher) (data : PipelineData) (u : PodcastURL)
    (p : Url) (headers : List (String × String)) (ct : String)
    (hparse : Url.parse u.as_str = some p)
    (hscheme : p.scheme = "http" ∨ p.scheme = "https")
    (hhead : fetcher.fetch_headers u.as_str = .ok headers)
    (hct : headersGet headers "content-type" = some ct)
    (hmatch : strContains (strToLower ct) "application/rss+xml" = true ∨
              strContains (strToLower ct) "application/atom+xml" = true ∨
              strContains (strToLower ct) "application/xml" = true ∨
              strContains (strToLower ct) "text/xml" = true) :
    ∀ pg : String → Nat × Nat → Except DownloaderError String,
      interpret_eval_url { fetcher with fetch_partial_content := pg } u
          (.ok data) =
        .ok { data with last_evaluated_url := some u
                        current_podcast := none } := by
  intro pg
  have hvalidate := validate_url_ok u.as_str p hparse hscheme
  have hheadok : try_validate_via_head
      { fetcher with fetch_partial_content := pg } u.as_str =
      .ok .validated := by
    unfold try_validate_via_head
    simp only [hhead]
    simp only [hct]
    rcases hmatch with h | h | h | h <;> simp [h]
  simp only [interpret_eval_url, hvalidate, hheadok]

/-- C4: for a well-formed http/https URL, whenever the HEAD stage is
inconclusive or fails, `interpret_eval_url` requests bytes 0..=4095; if the
returned text contains `<rss` or `<feed` case-insensitively the evaluation
succeeds, otherwise it fails definitively with `EvaluationFailed` naming the
URL, and if the partial-GET transport call itself fails the evaluation fails
definitively wrapping the transport error's message. -/
theorem interpret_eval_url_partial_get_stage
    (fetcher : FeedFetcher) (data : PipelineData) (u : PodcastURL) (p : Url)
    (hparse : Url.parse u.as_str = some p)
    (hscheme : p.scheme = "http" ∨ p.scheme = "https")
    (hhead : try_validate_via_head fetcher u.as_str ≠ .ok .validated) :
    interpret_eval_url fetcher u (.ok data) =
      match fetcher.fetch_partial_content u.as_str (0, 4095) with
      | .ok partial_content =>
        if strContains (strToLower partial_content) "<rss"
            || strContains (strToLower partial_content) "<feed" then
          .ok { data with last_evaluated_url := some u
                          current_podcast := none }
        else
          .error (.evaluationFailed
            ("URL content (first 4KB) of '" ++ u.as_str ++
             "' does not appear to be a valid RSS/Atom feed."))
      | .error e =>
        .error (.evaluationFailed
          ("Failed to fetch partial content for URL evaluation of '" ++
           u.as_str ++ "': " ++ e.message)) := by
  have hvalidate := validate_url_ok u.as_str p hparse hscheme
  simp only [interpret_eval_url, hvalidate]
  cases hh : try_validate_via_head fetcher u.as_str with
  | ok r =>
    cases r with
    | validated => exact absurd hh hhead
    | inconclusive =>
      simp only [try_validate_via_partial_get]
      cases hp : fetcher.fetch_partial_content u.as_str (0, 4095) with
      | ok partial_content =>
        by_cases hc : (strContains (strToLower partial_content) "<rss"
            || strContains (strToLower partial_content) "<feed") = true
        · simp [hc]
        · simp only [Bool.not_eq_true] at hc
          simp [hc]
      | error e => simp
  | error e =>
    simp only [try_validate_via_partial_get]
    cases hp : fetcher.fetch_partial_content u.as_str (0, 4095) with
    | ok partial_content =>
      by_cases hc : (strContains (strToLower partial_content) "<rss"
          || strContains (strToLower partial_content) "<feed") = true
      · simp [hc]
      · simp only [Bool.not_eq_true] at hc
        simp [hc]
    | error e2 => simp

/-- A concrete fetcher whose HEAD reports an RSS content type. -/
def fetcherHeadRss : FeedFetcher :=
  { fetch := fun _ => .error (.failed "no body")
    fetch_headers := fun _ => .ok [("content-type", "application/rss+xml")]
    fetch_partial_content := fun _ _ => .error (.failed "unused") }

/-- A concrete fetcher whose HEAD fails and whose partial GET returns a feed
marker. -/
def fetcherHeadFails : FeedFetcher :=
  { fetch := fun _ => .error (.failed "no body")
    fetch_headers := fun _ => .error (.failed "head boom")
    fetch_partial_content := fun _ _ => .ok "<rss version=2>" }

/-- C3 witness: at a concrete feed URL whose HEAD declares
`application/rss+xml`, evaluation succeeds without consulting the partial-GET
oracle (here one that always fails). -/
theorem interpret_eval_url_head_validated_witness :
    interpret_eval_url
        { fetcherHeadRss with
          fetch_partial_content := fun _ _ => .error (.failed "x") }
        (PodcastURL.new "http://example.com/feed") (.ok {}) =
      .ok { ({} : PipelineData) with
            last_evaluated_url := some (PodcastURL.new "http://example.com/feed")
            current_podcast := none } :=
  interpret_eval_url_head_validated fetcherHeadRss {}
    (PodcastURL.new "http://example.com/feed") ⟨"http", some "example.com"⟩
    [("content-type", "application/rss+xml")] "application/rss+xml"
    (by decide) (Or.inl rfl) rfl (by decide) (Or.inl (by decide))
    (fun _ _ => .error (.failed "x"))

/-- C4 witness: at a concrete feed URL whose HEAD fails, evaluation succeeds
via the partial-GET path because the first bytes contain `<rss`. -/
theorem interpret_eval_url_partial_get_stage_witness :
    interpret_eval_url fetcherHeadFails
        (PodcastURL.new "http://example.com/feed") (.ok {}) =
      .ok { ({} : PipelineData) with
            last_evaluated_url := some (PodcastURL.new "http://example.com/feed")
            current_podcast := none } := by
  rw [interpret_eval_url_partial_get_stage fetcherHeadFails {}
    (PodcastURL.new "http://example.com/feed") ⟨"http", some "example.com"⟩
    (by decide) (Or.inl rfl) (by decide)]
  decide

/-- C5: on a success accumulator, `interpret_download` downloads from
`last_evaluated_url` when it is `Some`, and only from the Download command's
explicit URL when it is `None`; a successful download stores the built
podcast in `current_podcast` and consumes `last_evaluated_url` (sets it to
`None`); a failed download is wrapped as `DownloadFailed`. -/
theorem interpret_download_url_choice_and_consumption (env : Env)
    (data : PipelineData) (explicit_url_from_command : PodcastURL) :
    interpret_download env explicit_url_from_command (.ok data) =
      match download_and_create_podcast env
          (data.last_evaluated_url.getD explicit_url_from_command) with
      | .ok podcast_obj =>
        .ok { data with current_podcast := some podcast_obj
                        last_evaluated_url := none }
      | .error e => .error (.downloadFailed e) := by
  cases h : data.last_evaluated_url with
  | none =>
    simp only [interpret_download, h, Option.getD_none]
    cases hd : download_and_create_podcast env explicit_url_from_command <;>
      rfl
  | some u =>
    simp only [interpret_download, h, Option.getD_some]
    cases hd : download_and_create_podcast env u <;> rfl

def PipelineError.isSaveFailure : PipelineError → Bool
  | .saveFailedWithMessage _ => true
  | .saveFailedWithSource _ _ => true
  | _ => false

/-- Helper: the only error `generate_podcast_filename` produces is a
save-failure (the unparseable-URL message). -/
theorem generate_filename_error_is_save_failure (u : PodcastURL)
    (e : PipelineError) (h : generate_podcast_filename u = .error e) :
    e.isSaveFailure = true := by
  simp only [generate_podcast_filename] at h
  cases hp : Url.parse u.as_str with
  | none =>
    rw [hp] at h
    simp only [Except.error.injEq] at h
    subst h
    rfl
  | some p =>
    rw [hp] at h
    simp at h

/-- C6: on a success accumulator, `interpret_save` fails with the
invalid-state error exactly when `current_podcast` is `None`; when a podcast
is present the step either returns the accumulator's data unchanged or fails
with a save-failure error (`SaveFailedWithMessage` or
`SaveFailedWithSource`), never an invalid-state error. -/
theorem interpret_save_invalid_state_iff_no_podcast (env : Env)
    (data : PipelineData) :
    (data.current_podcast = none →
      interpret_save env (.ok data) =
        .error (.invalidState "Save called without a podcast in accumulator")) ∧
    (∀ podcast_to_save, data.current_podcast = some podcast_to_save →
      interpret_save env (.ok data) = .ok data ∨
      ∃ e, interpret_save env (.ok data) = .error e ∧
        e.isSaveFailure = true) := by
  constructor
  · intro h
    simp [interpret_save, h]
  · intro podcast_to_save h
    simp only [interpret_save, h]
    split
    next e heq =>
      exact Or.inr ⟨e, rfl, generate_filename_error_is_save_failure _ e heq⟩
    next filename heq =>
      split
      · exact Or.inr ⟨_, rfl, rfl⟩
      · split
        · exact Or.inr ⟨_, rfl, rfl⟩
        · split
          · split
            · exact Or.inl rfl
            · exact Or.inl rfl
          · exact Or.inr ⟨_, rfl, rfl⟩

/-- A concrete environment of effect oracles for witnesses. -/
def envW : Env :=
  { fetcher := fetcherHeadRss
    read_channel := fun _ => .error "unused"
    now := 0
    create_dir_all := fun _ => .ok ()
    to_string_pretty := fun _ => .ok "serialized"
    write := fun _ _ => .ok ()
    send := fun _ => .ok ()
    parse_opml_from_file := fun _ => .error "unused"
    parse_rfc2822 := fun _ => none }

/-- C6 witness: saving with no podcast in the accumulator yields the
invalid-state error. -/
theorem interpret_save_invalid_state_iff_no_podcast_witness :
    interpret_save envW (.ok {}) =
      .error (.invalidState "Save called without a podcast in accumulator") :=
  (interpret_save_invalid_state_iff_no_podcast envW {}).1 rfl

/-- Helper: a `PipelineData` whose `opml_entries` is already `none` is fixed
by clearing `opml_entries`. -/
theorem pipelineData_clear_opml_of_none (d : PipelineData)
    (h : d.opml_entries = none) : { d with opml_entries := none } = d := by
  cases d
  simp_all

/-- Helper: the outcome of `processOpmlBody` on a success accumulator — the
parent data with `opml_entries` consumed, plus the per-entry outcomes of the
effective entry list. -/
theorem processOpmlBody_ok (env : Env)
    (nestedProcess : List OpmlFeedEntry → CommandAccumulator →
      CommandAccumulator)
    (data : PipelineData) (feed_entries : List OpmlFeedEntry) :
    processOpmlBody env nestedProcess feed_entries (.ok data) =
      (.ok { data with opml_entries := none },
       (effectiveEntries data feed_entries).map (fun entry =>
         match (run_commands (pipelineAlgebraWith env nestedProcess)
             (entryChain entry) () (.ok {})).2 with
         | .error _ => false
         | .ok _ => true)) := by
  simp only [processOpmlBody, effectiveEntries]
  cases hop : data.opml_entries with
  | some acc_entries =>
    simp only []
    by_cases he : acc_entries.isEmpty
    · rw [if_pos he]
      rw [List.isEmpty_iff.mp he]
      rfl
    · rw [if_neg he]
      rfl
  | none =>
    simp only []
    rw [pipelineData_clear_opml_of_none data hop]
    by_cases he : feed_entries.isEmpty
    · rw [if_pos he]
      rw [List.isEmpty_iff.mp he]
      rfl
    · rw [if_neg he]
      rfl

/-- Helper: closed form of the fan-out step on a success accumulator, at any
fuel. -/
theorem interpret_process_opml_entries_fuel_ok (env : Env) (fuel : Nat)
    (data : PipelineData) (feed_entries : List OpmlFeedEntry) :
    interpret_process_opml_entries_fuel env fuel feed_entries (.ok data) =
      (.ok { data with opml_entries := none },
       (effectiveEntries data feed_entries).map (subChainOk env fuel)) := by
  cases fuel with
  | zero => exact processOpmlBody_ok env _ data feed_entries
  | succ n => exact processOpmlBody_ok env _ data feed_entries

/-- C7 counterexample: the parent's accumulator does **not** pass through
unchanged — when `opml_entries` is `Some([])` the step consumes it, so the
returned data differs from the input data. -/
theorem process_opml_entries_consumes_accumulator :
    (interpret_process_opml_entries_fuel envW 1 []
        (.ok { opml_entries := some [] })).1 ≠
      .ok { opml_entries := some [] } := by
  decide

/-- C7 (amended): on a success accumulator the fan-out step itself always
succeeds, returning the parent data with `opml_entries` consumed (set to
`None`) and the other fields unchanged; the logged per-entry outcomes are
exactly the success/failure of each effective entry's sub-chain, so a batch
of N entries of which M fail logs exactly M sub-failures while the step
still succeeds; and an effectively empty entry list is a trivial no-op whose
result does not depend on the effect environment at all (no I/O). -/
theorem interpret_process_opml_entries_batch (env : Env) (fuel : Nat)
    (data : PipelineData) (feed_entries : List OpmlFeedEntry) :
    ((interpret_process_opml_entries_fuel env fuel feed_entries
        (.ok data)).1 = .ok { data with opml_entries := none }) ∧
    ((interpret_process_opml_entries_fuel env fuel feed_entries
        (.ok data)).2 =
      (effectiveEntries data feed_entries).map (subChainOk env fuel)) ∧
    ((interpret_process_opml_entries_fuel env fuel feed_entries
        (.ok data)).2.countP (fun b => b == false) =
      ((effectiveEntries data feed_entries).filter
        (fun entry => subChainOk env fuel entry == false)).length) ∧
    (effectiveEntries data feed_entries = [] →
      ∀ env2 : Env,
        interpret_process_opml_entries_fuel env2 fuel feed_entries
          (.ok data) = (.ok { data with opml_entries := none }, [])) := by
  refine ⟨?_, ?_, ?_, ?_⟩
  · rw [interpret_process_opml_entries_fuel_ok]
  · rw [interpret_process_opml_entries_fuel_ok]
  · rw [interpret_process_opml_entries_fuel_ok]
    simp only [List.countP_map]
    rw [List.countP_eq_length_filter]
    rfl
  · intro hempty env2
    rw [interpret_process_opml_entries_fuel_ok, hempty]
    rfl

/-- C7 amended witness: at a concrete accumulator carrying an empty OPML
entry list, the step succeeds, consumes the list, and logs no outcomes. -/
theorem interpret_process_opml_entries_batch_witness :
    interpret_process_opml_entries_fuel envW 1 []
        (.ok { opml_entries := some [] }) =
      (.ok { opml_entries := none }, []) :=
  (interpret_process_opml_entries_batch envW 1 { opml_entries := some [] }
    []).2.2.2 rfl envW

/-- C8 counterexample: two distinct, parseable hosts (`a_b` and `a,b`, both
legal http hosts) sanitize to the same prefix; and no function from URL
strings to the hex digests of a 64-bit hash can be injective (pigeonhole),
so the hash component cannot differ for **all** pairs of distinct URLs. -/
theorem sanitized_host_collision_and_hash_not_injective :
    Url.parse "http://a_b/x" = some ⟨"http", some "a_b"⟩ ∧
    Url.parse "http://a,b/x" = some ⟨"http", some "a,b"⟩ ∧
    ("a_b" : String) ≠ "a,b" ∧
    sanitized_host "a_b" = sanitized_host "a,b" ∧
    ¬ Function.Injective calculate_url_hash := by
  refine ⟨by decide, by decide, by decide, by decide, ?_⟩
  intro hinj
  have hlt : ∀ s : String, defaultHash s < 2 ^ 64 := fun s =>
    Nat.mod_lt _ (by positivity)
  obtain ⟨a, b, hab, heq⟩ := Finite.exists_ne_map_eq_of_infinite
    (fun s : String => (⟨defaultHash s, hlt s⟩ : Fin (2 ^ 64)))
  apply hab
  apply hinj
  unfold calculate_url_hash
  have h64 : defaultHash a = defaultHash b := congrArg Fin.val heq
  rw [h64]

/-- C8 (amended): filename generation is a deterministic function of the URL
string alone — identical URL strings give identical filenames of the form
`{sanitized-host}-{hex-hash}.json`, with the host sanitized by keeping
alphanumerics, `.`, `-` and replacing every other character with `_` — but
sanitization can identify two distinct hosts, and a 64-bit hash cannot
assign distinct hex digests to all pairs of distinct URL strings. -/
theorem generate_podcast_filename_deterministic (u : PodcastURL) :
    (∀ v : PodcastURL, u.as_str = v.as_str →
      generate_podcast_filename u = generate_podcast_filename v) ∧
    (∀ p : Url, Url.parse u.as_str = some p →
      generate_podcast_filename u =
        .ok (sanitized_host (p.hostOr "unknown_host") ++ "-" ++
             calculate_url_hash u.as_str ++ ".json")) := by
  constructor
  · intro v h
    have huv : u = v := by
      cases u
      cases v
      simpa [PodcastURL.as_str] using h
    rw [huv]
  · intro p hp
    simp only [generate_podcast_filename, hp]

/-- C8 amended witness: the closed form at a concrete URL. -/
theorem generate_podcast_filename_deterministic_witness :
    generate_podcast_filename (PodcastURL.new "http://example.com/feed") =
      .ok (sanitized_host "example.com" ++ "-" ++
           calculate_url_hash "http://example.com/feed" ++ ".json") := by
  have h := (generate_podcast_filename_deterministic
    (PodcastURL.new "http://example.com/feed")).2
    ⟨"http", some "example.com"⟩ (by decide)
  simpa [Url.hostOr] using h

end Rustero
